import Mathlib

/-!
Shallow embedding of `src/countries.py` (ETL pipeline for REST Countries data).

Python values that flow through the transform are modelled by `JVal`, a
JSON-like value type; Python dictionaries are association lists with unique
keys (as produced by a JSON parser).  Fallible Python expressions (attribute
errors on non-dicts, `str.join` over non-strings, the unbound-local hazard in
`fetch_country_data`) are modelled with `Except PyErr`.  Numeric JSON values
are carried opaquely as integers: `transform_country` performs no arithmetic
on them, only default substitution, so nothing claim-relevant is lost.
I/O side effects (printing, the cache file write) are irrelevant to the
properties below and are not modelled; `main` is modelled as a function of
its collaborators' outcomes, returning its result together with the ordered
trace of externally visible steps it performed.
-/

namespace Countries

/-- JSON-like values as handled by the Python script. -/
inductive JVal : Type where
  | null : JVal
  | bool : Bool → JVal
  | num : Int → JVal
  | str : String → JVal
  | arr : List JVal → JVal
  | obj : List (String × JVal) → JVal

/-- A Python dictionary with string keys, as parsed from JSON. -/
abbrev Dict := List (String × JVal)

/-- Exceptions that the modelled code can raise. -/
inductive PyErr : Type where
  | attributeError   : PyErr  -- `.get` / `.values` / `.keys` on a non-dict
  | typeError        : PyErr  -- `join` over non-strings, bad `+`, bad iteration
  | unboundLocal     : PyErr  -- reading `response1`/`response2` after the except branch
  | valueError       : PyErr  -- ValueError("No country data returned from API. ...")
  | connectionError  : PyErr  -- ConnectionError("Failed to connect to PostgreSQL. ...")
  | stepError        : PyErr  -- any exception escaping create_table / insert / commit
deriving DecidableEq

/-- First-match key lookup in a dictionary (Python dict keys are unique). -/
def dictLookup (d : Dict) (k : String) : Option JVal :=
  (d.find? (fun p => p.1 == k)).map (fun p => p.2)

/-- `d.get(k)` on a dict known to be a dict: the stored value, `None` if absent. -/
def pyGet (d : Dict) (k : String) : JVal :=
  (dictLookup d k).getD JVal.null

/-- `d.get(k, dflt)` on a dict known to be a dict. -/
def pyGetD (d : Dict) (k : String) (dflt : JVal) : JVal :=
  (dictLookup d k).getD dflt

/-- `v.get(k)` where `v` is an arbitrary value: AttributeError unless a dict. -/
def jGet (v : JVal) (k : String) : Except PyErr JVal :=
  match v with
  | .obj kvs => .ok (pyGet kvs k)
  | _ => .error .attributeError

/-- `v.get(k, dflt)` where `v` is an arbitrary value. -/
def jGetD (v : JVal) (k : String) (dflt : JVal) : Except PyErr JVal :=
  match v with
  | .obj kvs => .ok (pyGetD kvs k dflt)
  | _ => .error .attributeError

/-- `v.values()`: AttributeError unless a dict. -/
def jValues (v : JVal) : Except PyErr (List JVal) :=
  match v with
  | .obj kvs => .ok (kvs.map (fun p => p.2))
  | _ => .error .attributeError

/-- `v.keys()`: AttributeError unless a dict. -/
def jKeys (v : JVal) : Except PyErr (List String) :=
  match v with
  | .obj kvs => .ok (kvs.map (fun p => p.1))
  | _ => .error .attributeError

/-- `for x in v`: lists yield elements, strings their characters, dicts their
keys; anything else raises TypeError. -/
def pyIter (v : JVal) : Except PyErr (List JVal) :=
  match v with
  | .arr xs => .ok xs
  | .str s => .ok (s.toList.map (fun c => JVal.str (String.singleton c)))
  | .obj kvs => .ok (kvs.map (fun p => JVal.str p.1))
  | _ => .error .typeError

/-- Python truthiness of a JSON value. -/
def pyTruthy : JVal → Bool
  | .null => false
  | .bool b => b
  | .num n => n != 0
  | .str s => s != ""
  | .arr xs => !xs.isEmpty
  | .obj kvs => !kvs.isEmpty

/-- Python `+` on the value forms these records can produce; anything mixed
(e.g. `str + int`) raises TypeError, as in CPython. -/
def pyAdd (a b : JVal) : Except PyErr JVal :=
  match a, b with
  | .str x, .str y => .ok (.str (x ++ y))
  | .num x, .num y => .ok (.num (x + y))
  | .arr x, .arr y => .ok (.arr (x ++ y))
  | _, _ => .error .typeError

/-- Left-to-right effectful map, as a Python list comprehension evaluates:
the first exception propagates. -/
def mapExcept {α β : Type} (f : α → Except PyErr β) : List α → Except PyErr (List β)
  | [] => .ok []
  | x :: xs => do
      let y ← f x
      let ys ← mapExcept f xs
      .ok (y :: ys)

/-- `sep.join(xs)`: TypeError unless every element is a string. -/
def pyJoin (sep : String) (xs : List JVal) : Except PyErr String := do
  let ss ← mapExcept (fun v =>
    match v with
    | JVal.str s => Except.ok s
    | _ => Except.error PyErr.typeError) xs
  .ok (String.intercalate sep ss)

/-- The 17-column flat row produced by `transform_country` (source order of
the returned tuple; `callingCodes` is the 7th element, `capital` the 8th). -/
structure FlatCountryRow : Type where
  commonName : JVal
  officialName : JVal
  nativeNames : JVal
  currencyCodes : JVal
  currencyNames : JVal
  currencySymbols : JVal
  callingCodes : JVal
  capital : JVal
  region : JVal
  subregion : JVal
  languages : JVal
  area : JVal
  population : JVal
  continents : JVal
  independent : JVal
  unMember : JVal
  startOfWeek : JVal

/-- Line 114: `name = country.get('name', {})`. -/
def nameOf (c : Dict) : JVal := pyGetD c "name" (.obj [])

/-- Line 115: `currencies = country.get('currencies', {})`. -/
def currenciesOf (c : Dict) : JVal := pyGetD c "currencies" (.obj [])

/-- Line 116: `idd = country.get('idd', {})`. -/
def iddOf (c : Dict) : JVal := pyGetD c "idd" (.obj [])

/-- Tuple element 1, line 119: `name.get('common')`. -/
def commonNameField (c : Dict) : Except PyErr JVal := jGet (nameOf c) "common"

/-- Tuple element 2, line 120: `name.get('official')`. -/
def officialNameField (c : Dict) : Except PyErr JVal := jGet (nameOf c) "official"

/-- Tuple element 3, line 121:
`', '.join([native.get('common', '') for native in name.get('nativeName', {}).values()])`. -/
def nativeNamesField (c : Dict) : Except PyErr JVal := do
  let nn ← jGetD (nameOf c) "nativeName" (.obj [])
  let vals ← jValues nn
  let items ← mapExcept (fun native => jGetD native "common" (.str "")) vals
  let s ← pyJoin ", " items
  .ok (.str s)

/-- Tuple element 4, line 122: `', '.join(currencies.keys())`. -/
def currencyCodesField (c : Dict) : Except PyErr JVal := do
  let ks ← jKeys (currenciesOf c)
  .ok (.str (String.intercalate ", " ks))

/-- Tuple element 5, line 123:
`', '.join([value.get('name', '') for value in currencies.values()])`. -/
def currencyNamesField (c : Dict) : Except PyErr JVal := do
  let vals ← jValues (currenciesOf c)
  let items ← mapExcept (fun v => jGetD v "name" (.str "")) vals
  let s ← pyJoin ", " items
  .ok (.str s)

/-- Tuple element 6, line 124: as element 5 with `'symbol'`. -/
def currencySymbolsField (c : Dict) : Except PyErr JVal := do
  let vals ← jValues (currenciesOf c)
  let items ← mapExcept (fun v => jGetD v "symbol" (.str "")) vals
  let s ← pyJoin ", " items
  .ok (.str s)

/-- Tuple element 7, line 125:
`', '.join([idd.get('root', '') + suffix for suffix in idd.get('suffixes', [])])
if idd.get('suffixes') else ''`.  The condition is evaluated first; in the
truthy branch `idd.get('root', '')` is pure and deterministic, so hoisting it
out of the comprehension preserves both value and error behaviour. -/
def callingCodesField (c : Dict) : Except PyErr JVal := do
  let cond ← jGet (iddOf c) "suffixes"
  if pyTruthy cond then do
    let root ← jGetD (iddOf c) "root" (.str "")
    let sfx ← jGetD (iddOf c) "suffixes" (.arr [])
    let xs ← pyIter sfx
    let items ← mapExcept (fun s => pyAdd root s) xs
    let s ← pyJoin ", " items
    .ok (.str s)
  else
    .ok (.str "")

/-- Tuple element 8, line 126:
`', '.join(country.get('capital', [])) if country.get('capital') else "Unknown"`. -/
def capitalField (c : Dict) : Except PyErr JVal := do
  if pyTruthy (pyGet c "capital") then do
    let xs ← pyIter (pyGetD c "capital" (.arr []))
    let s ← pyJoin ", " xs
    .ok (.str s)
  else
    .ok (.str "Unknown")

/-- Tuple element 9, line 127: `country.get('region')`. -/
def regionField (c : Dict) : JVal := pyGet c "region"

/-- Tuple element 10, line 128: `country.get('subregion')`. -/
def subregionField (c : Dict) : JVal := pyGet c "subregion"

/-- Tuple element 11, line 129: `', '.join(country.get('languages', {}).values())`. -/
def languagesField (c : Dict) : Except PyErr JVal := do
  let vals ← jValues (pyGetD c "languages" (.obj []))
  let s ← pyJoin ", " vals
  .ok (.str s)

/-- Tuple element 12, line 130: `country.get('area', 0)`. -/
def areaField (c : Dict) : JVal := pyGetD c "area" (.num 0)

/-- Tuple element 13, line 131: `country.get('population', 0)`. -/
def populationField (c : Dict) : JVal := pyGetD c "population" (.num 0)

/-- Tuple element 14, line 132: `', '.join(country.get('continents', []))`. -/
def continentsField (c : Dict) : Except PyErr JVal := do
  let xs ← pyIter (pyGetD c "continents" (.arr []))
  let s ← pyJoin ", " xs
  .ok (.str s)

/-- Tuple element 15, line 133: `country.get('independent')`. -/
def independentField (c : Dict) : JVal := pyGet c "independent"

/-- Tuple element 16, line 134: `country.get('unMember')`. -/
def unMemberField (c : Dict) : JVal := pyGet c "unMember"

/-- Tuple element 17, line 135: `country.get('startOfWeek')`. -/
def startOfWeekField (c : Dict) : JVal := pyGet c "startOfWeek"

/-- `transform_country` (lines 92-136): the 17-tuple, with the fallible
elements evaluated in Python's left-to-right tuple order (the pure
passthrough gets cannot raise, so their position in the sequencing is
immaterial). -/
def transform_country (c : Dict) : Except PyErr FlatCountryRow := do
  let v1 ← commonNameField c
  let v2 ← officialNameField c
  let v3 ← nativeNamesField c
  let v4 ← currencyCodesField c
  let v5 ← currencyNamesField c
  let v6 ← currencySymbolsField c
  let v7 ← callingCodesField c
  let v8 ← capitalField c
  let v11 ← languagesField c
  let v14 ← continentsField c
  .ok { commonName := v1, officialName := v2, nativeNames := v3,
        currencyCodes := v4, currencyNames := v5, currencySymbols := v6,
        callingCodes := v7, capital := v8, region := regionField c,
        subregion := subregionField c, languages := v11,
        area := areaField c, population := populationField c,
        continents := v14, independent := independentField c,
        unMember := unMemberField c, startOfWeek := startOfWeekField c }

/-- `{**a, **b}` update step: overwriting an existing key keeps its position,
a fresh key is appended (CPython dict insertion semantics). -/
def dictInsert (d : Dict) (k : String) (v : JVal) : Dict :=
  if d.any (fun p => p.1 == k) then
    d.map (fun p => if p.1 == k then (k, v) else p)
  else
    d ++ [(k, v)]

/-- `{**a, **b}` (line 49): start from `a` and insert every pair of `b`. -/
def dictMerge (a b : Dict) : Dict :=
  b.foldl (fun acc p => dictInsert acc p.1 p.2) a

/-- `fetch_country_data` (lines 38-58), as a function of the outcomes of the
two `requests.get(...).json()` calls (`none` models a raised exception).
When either call raises, the `except` branch only prints; control then falls
through to `zip(response1, response2)` on line 47, where at least one of the
two locals is unbound, so the function raises UnboundLocalError instead of
returning.  The cache-file write is a side effect not modelled here. -/
def fetch_country_data (r1 r2 : Option (List Dict)) : Except PyErr (List Dict) :=
  match r1, r2 with
  | some a, some b => .ok ((a.zip b).map (fun p => dictMerge p.1 p.2))
  | _, _ => .error .unboundLocal

/-- Externally visible steps of a `main` run, in the order performed. -/
inductive Event : Type where
  | cacheLoad : Event      -- load_country_data_from_json()  (line 262)
  | fetchCall : Event      -- fetch_country_data(urls)       (line 265)
  | dbConnect : Event      -- connect_db()                   (line 270)
  | dbCreateTable : Event  -- create_table(cursor)           (line 277)
  | dbInsert : Event       -- insert_countries(...)          (line 279)
  | dbCommit : Event       -- conn.commit()                  (line 281)
  | cursorClose : Event    -- cursor.close()                 (line 282)
  | connClose : Event      -- conn.close()                   (line 283)
deriving DecidableEq

/-- Outcomes of the database collaborators in one `main` run: whether
`connect_db` returned a connection, and whether each of `create_table`,
`insert_countries` (including the per-record `transform_country` calls it
makes) and `conn.commit()` ran without raising. -/
structure DbEnv : Type where
  connOk : Bool
  createOk : Bool
  insertOk : Bool
  commitOk : Bool
deriving DecidableEq

/-- Lines 270-284 of `main`: connect, create table, bulk insert, commit,
then close cursor and connection.  There is no `try`/`finally`: an exception
in any step propagates immediately, skipping the two close calls. -/
def runDbPhase (db : DbEnv) (ev : List Event) : Except PyErr Unit × List Event :=
  let ev1 := ev ++ [Event.dbConnect]
  if db.connOk then
    let ev2 := ev1 ++ [Event.dbCreateTable]
    if db.createOk then
      let ev3 := ev2 ++ [Event.dbInsert]
      if db.insertOk then
        let ev4 := ev3 ++ [Event.dbCommit]
        if db.commitOk then
          (.ok (), ev4 ++ [Event.cursorClose, Event.connClose])
        else (.error .stepError, ev4)
      else (.error .stepError, ev3)
    else (.error .stepError, ev2)
  else (.error .connectionError, ev1)

/-- `main` (lines 239-284) with `USE_CACHED = True`, as a function of its
collaborators' outcomes.  `cache` is what `load_country_data_from_json`
returns (`none` models its `None` result: missing file or JSON error);
`r1`, `r2` feed `fetch_country_data` as above; `db` drives the database
phase.  The result pairs `main`'s outcome (`.error` models an uncaught
exception) with the ordered trace of steps performed.  Note line 263 guards
the fetch with `countries is None`, and line 266 raises ValueError on any
falsy `countries`. -/
def runMain (cache : Option (List Dict)) (r1 r2 : Option (List Dict)) (db : DbEnv) :
    Except PyErr Unit × List Event :=
  match cache with
  | some countries =>
      if countries.isEmpty then (.error .valueError, [Event.cacheLoad])
      else runDbPhase db [Event.cacheLoad]
  | none =>
      match fetch_country_data r1 r2 with
      | .error e => (.error e, [Event.cacheLoad, Event.fetchCall])
      | .ok countries =>
          if countries.isEmpty then (.error .valueError, [Event.cacheLoad, Event.fetchCall])
          else runDbPhase db [Event.cacheLoad, Event.fetchCall]

/-- The example record of the spec:
`{"name": {"common": "Testland"}, "currencies": {"XYZ": {"name": "Testcoin", "symbol": "T"}}}`. -/
def testland : Dict :=
  [("name", .obj [("common", .str "Testland")]),
   ("currencies", .obj [("XYZ", .obj [("name", .str "Testcoin"), ("symbol", .str "T")])])]

/-- The row `transform_country` produces for `testland`. -/
def testlandRow : FlatCountryRow :=
  { commonName := .str "Testland", officialName := .null, nativeNames := .str "",
    currencyCodes := .str "XYZ", currencyNames := .str "Testcoin",
    currencySymbols := .str "T", callingCodes := .str "", capital := .str "Unknown",
    region := .null, subregion := .null, languages := .str "",
    area := .num 0, population := .num 0, continents := .str "",
    independent := .null, unMember := .null, startOfWeek := .null }

/-- A record whose `capital` is a non-empty list of strings. -/
def capRec : Dict := [("capital", .arr [.str "Accra", .str "Lome"])]

/-- The row `transform_country` produces for `capRec`. -/
def capRow : FlatCountryRow :=
  { commonName := .null, officialName := .null, nativeNames := .str "",
    currencyCodes := .str "", currencyNames := .str "",
    currencySymbols := .str "", callingCodes := .str "",
    capital := .str "Accra, Lome", region := .null, subregion := .null,
    languages := .str "", area := .num 0, population := .num 0,
    continents := .str "", independent := .null, unMember := .null,
    startOfWeek := .null }

/-- A record with a populated `idd` block. -/
def iddRec : Dict :=
  [("idd", .obj [("root", .str "+2"), ("suffixes", .arr [.str "33", .str "28"])])]

/-- The row `transform_country` produces for `iddRec`. -/
def iddRow : FlatCountryRow :=
  { commonName := .null, officialName := .null, nativeNames := .str "",
    currencyCodes := .str "", currencyNames := .str "",
    currencySymbols := .str "", callingCodes := .str "+233, +228",
    capital := .str "Unknown", region := .null, subregion := .null,
    languages := .str "", area := .num 0, population := .num 0,
    continents := .str "", independent := .null, unMember := .null,
    startOfWeek := .null }

/-! ### Helper lemmas -/

theorem ok_bind {α β : Type} (a : α) (k : α → Except PyErr β) :
    ((Except.ok a : Except PyErr α) >>= k) = k a := rfl

theorem bindE_ok {α β : Type} {e : Except PyErr α} {k : α → Except PyErr β} {b : β}
    (h : (e >>= k) = .ok b) : ∃ a, e = .ok a ∧ k a = .ok b := by
  cases e with
  | error ex => exact absurd h (by simp [Bind.bind, Except.bind])
  | ok a => exact ⟨a, rfl, h⟩

/-- When `transform_country` succeeds, each component of the row is the
successful value of the corresponding field computation. -/
theorem transform_country_ok_parts {c : Dict} {row : FlatCountryRow}
    (h : transform_country c = .ok row) :
    commonNameField c = .ok row.commonName ∧
    officialNameField c = .ok row.officialName ∧
    nativeNamesField c = .ok row.nativeNames ∧
    currencyCodesField c = .ok row.currencyCodes ∧
    currencyNamesField c = .ok row.currencyNames ∧
    currencySymbolsField c = .ok row.currencySymbols ∧
    callingCodesField c = .ok row.callingCodes ∧
    capitalField c = .ok row.capital ∧
    languagesField c = .ok row.languages ∧
    continentsField c = .ok row.continents ∧
    row.region = regionField c ∧
    row.subregion = subregionField c ∧
    row.area = areaField c ∧
    row.population = populationField c ∧
    row.independent = independentField c ∧
    row.unMember = unMemberField c ∧
    row.startOfWeek = startOfWeekField c := by
  unfold transform_country at h
  obtain ⟨v1, h1, h⟩ := bindE_ok h
  obtain ⟨v2, h2, h⟩ := bindE_ok h
  obtain ⟨v3, h3, h⟩ := bindE_ok h
  obtain ⟨v4, h4, h⟩ := bindE_ok h
  obtain ⟨v5, h5, h⟩ := bindE_ok h
  obtain ⟨v6, h6, h⟩ := bindE_ok h
  obtain ⟨v7, h7, h⟩ := bindE_ok h
  obtain ⟨v8, h8, h⟩ := bindE_ok h
  obtain ⟨v11, h11, h⟩ := bindE_ok h
  obtain ⟨v14, h14, h⟩ := bindE_ok h
  injection h with h
  subst h
  exact ⟨h1, h2, h3, h4, h5, h6, h7, h8, h11, h14,
    rfl, rfl, rfl, rfl, rfl, rfl, rfl⟩

theorem mapExcept_str (ss : List String) :
    mapExcept (fun v => match v with
      | JVal.str s => Except.ok s
      | _ => Except.error PyErr.typeError) (ss.map JVal.str) = .ok ss := by
  induction ss with
  | nil => rfl
  | cons s t ih => simp [mapExcept, ih, ok_bind]

theorem pyJoin_map_str (sep : String) (ss : List String) :
    pyJoin sep (ss.map JVal.str) = .ok (String.intercalate sep ss) := by
  simp [pyJoin, mapExcept_str, ok_bind]

theorem mapExcept_pyAdd_str (r : String) (ss : List String) :
    mapExcept (fun v => pyAdd (.str r) v) (ss.map JVal.str) =
      .ok ((ss.map (fun s => r ++ s)).map JVal.str) := by
  induction ss with
  | nil => rfl
  | cons s t ih =>
      show (do
        let ys ← mapExcept (fun v => pyAdd (JVal.str r) v) (t.map JVal.str)
        Except.ok (JVal.str (r ++ s) :: ys) : Except PyErr (List JVal)) =
          Except.ok (((s :: t).map (fun x => r ++ x)).map JVal.str)
      rw [ih, ok_bind, List.map_cons, List.map_cons]

theorem capitalField_default {c : Dict}
    (h : dictLookup c "capital" = none ∨ dictLookup c "capital" = some (.arr [])) :
    capitalField c = .ok (.str "Unknown") := by
  rcases h with h | h <;> simp [capitalField, pyGet, h, pyTruthy]

theorem capitalField_strList {c : Dict} (ss : List String) (hne : ss ≠ [])
    (h : dictLookup c "capital" = some (.arr (ss.map JVal.str))) :
    capitalField c = .ok (.str (String.intercalate ", " ss)) := by
  have htr : pyTruthy (.arr (ss.map JVal.str)) = true := by
    cases ss with
    | nil => exact absurd rfl hne
    | cons a t => rfl
  simp [capitalField, pyGet, pyGetD, h, htr, pyIter, pyJoin_map_str, ok_bind]

theorem callingCodesField_empty {c : Dict} {kvs : Dict} (hidd : iddOf c = .obj kvs)
    (h : dictLookup kvs "suffixes" = none ∨ dictLookup kvs "suffixes" = some (.arr [])) :
    callingCodesField c = .ok (.str "") := by
  rcases h with h | h <;>
    simp [callingCodesField, hidd, jGet, pyGet, h, pyTruthy, ok_bind]

theorem callingCodesField_strList {c : Dict} {kvs : Dict} (r : String) (ss : List String)
    (hne : ss ≠ []) (hidd : iddOf c = .obj kvs)
    (hs : dictLookup kvs "suffixes" = some (.arr (ss.map JVal.str)))
    (hr : pyGetD kvs "root" (.str "") = .str r) :
    callingCodesField c =
      .ok (.str (String.intercalate ", " (ss.map (fun s => r ++ s)))) := by
  have htr : pyTruthy (.arr (ss.map JVal.str)) = true := by
    cases ss with
    | nil => exact absurd rfl hne
    | cons a t => rfl
  have hr2 : (dictLookup kvs "root").getD (JVal.str "") = JVal.str r := hr
  simp [callingCodesField, hidd, jGet, jGetD, pyGet, pyGetD, hs, hr2, htr, pyIter,
    mapExcept_pyAdd_str, pyJoin_map_str, ok_bind]
  rw [← List.map_map, pyJoin_map_str, ok_bind]

/-! ### Claim theorems -/

/-- C1: for every raw country record in which the key `capital` is absent, or
maps to an empty sequence, the 8th field (`capital`) of the tuple returned by
`transform_country` equals the literal string "Unknown"; when `capital` is a
non-empty sequence of strings, the 8th field is its elements joined with
", ". -/
theorem capital_unknown_default {c : Dict} {row : FlatCountryRow}
    (h : transform_country c = .ok row) :
    ((dictLookup c "capital" = none ∨ dictLookup c "capital" = some (.arr [])) →
        row.capital = .str "Unknown") ∧
    (∀ ss : List String, ss ≠ [] →
        dictLookup c "capital" = some (.arr (ss.map JVal.str)) →
        row.capital = .str (String.intercalate ", " ss)) := by
  have h8 := (transform_country_ok_parts h).2.2.2.2.2.2.2.1
  constructor
  · intro hcap
    have hc := capitalField_default hcap
    rw [hc] at h8
    injection h8 with h8
    exact h8.symm
  · intro ss hne hcap
    have hc := capitalField_strList ss hne hcap
    rw [hc] at h8
    injection h8 with h8
    exact h8.symm

theorem capital_unknown_default_witness :
    (transform_country testland = .ok testlandRow ∧
      testlandRow.capital = .str "Unknown") ∧
    (transform_country capRec = .ok capRow ∧
      capRow.capital = .str "Accra, Lome") :=
  ⟨⟨rfl, (@capital_unknown_default testland testlandRow rfl).1 (Or.inl rfl)⟩,
   ⟨rfl, (@capital_unknown_default capRec capRow rfl).2
      ["Accra", "Lome"] (by simp) rfl⟩⟩

/-- C2: for every raw country record in which `idd.suffixes` is absent or an
empty sequence, the 7th field (calling codes) of the tuple returned by
`transform_country` equals "" — never "Unknown"; when `idd.suffixes` is a
non-empty sequence of strings, the field is the concatenations
`idd.root + suffix` joined with ", " (the root defaulting to "" when
absent, reflected by the `pyGetD kvs "root"` hypothesis). -/
theorem calling_codes_empty_default {c : Dict} {row : FlatCountryRow} {kvs : Dict}
    (h : transform_country c = .ok row) (hidd : iddOf c = .obj kvs) :
    ((dictLookup kvs "suffixes" = none ∨ dictLookup kvs "suffixes" = some (.arr [])) →
        row.callingCodes = .str "" ∧ row.callingCodes ≠ .str "Unknown") ∧
    (∀ (r : String) (ss : List String), ss ≠ [] →
        dictLookup kvs "suffixes" = some (.arr (ss.map JVal.str)) →
        pyGetD kvs "root" (.str "") = .str r →
        row.callingCodes = .str (String.intercalate ", " (ss.map (fun s => r ++ s)))) := by
  have h7 := (transform_country_ok_parts h).2.2.2.2.2.2.1
  constructor
  · intro hs
    have hc := callingCodesField_empty hidd hs
    rw [hc] at h7
    injection h7 with h7
    refine ⟨h7.symm, ?_⟩
    rw [h7.symm]
    intro hbad
    injection hbad with hbad
    exact absurd hbad (by decide)
  · intro r ss hne hs hr
    have hc := callingCodesField_strList r ss hne hidd hs hr
    rw [hc] at h7
    injection h7 with h7
    exact h7.symm

theorem calling_codes_empty_default_witness :
    (transform_country testland = .ok testlandRow ∧
      testlandRow.callingCodes = .str "" ∧
      testlandRow.callingCodes ≠ .str "Unknown") ∧
    (transform_country iddRec = .ok iddRow ∧
      iddRow.callingCodes = .str "+233, +228") :=
  ⟨⟨rfl, (@calling_codes_empty_default testland testlandRow [] rfl rfl).1
      (Or.inl rfl)⟩,
   ⟨rfl, (@calling_codes_empty_default iddRec iddRow
      [("root", .str "+2"), ("suffixes", .arr [.str "33", .str "28"])]
      rfl rfl).2 "+2" ["33", "28"] (by simp) rfl rfl⟩⟩

theorem dictLookup_cons (p : String × JVal) (d : Dict) (k : String) :
    dictLookup (p :: d) k = if p.1 == k then some p.2 else dictLookup d k := by
  by_cases h : p.1 == k <;> simp [dictLookup, List.find?, h]

theorem beq_true_of_eq {a b : String} (h : a = b) : (a == b) = true := by simp [h]

theorem not_beq_of_ne {a b : String} (h : a ≠ b) : ¬((a == b) = true) := by simp [h]

theorem dictLookup_eq_none_of_not_mem (d : Dict) (k : String)
    (h : k ∉ d.map Prod.fst) : dictLookup d k = none := by
  induction d with
  | nil => rfl
  | cons p t ih =>
      have h1 : p.1 ≠ k := fun he => h (by simp [he.symm])
      have h2 : k ∉ t.map Prod.fst := fun hm => h (by simp [hm])
      rw [dictLookup_cons, if_neg (not_beq_of_ne h1)]
      exact ih h2

theorem dictLookup_map_replace_ne (d : Dict) (k k2 : String) (v : JVal) (h : k2 ≠ k) :
    dictLookup (d.map (fun p => if p.1 == k then (k, v) else p)) k2 = dictLookup d k2 := by
  induction d with
  | nil => rfl
  | cons p t ih =>
      rw [List.map_cons]
      by_cases hpk : p.1 = k
      · rw [if_pos (beq_true_of_eq hpk), dictLookup_cons, dictLookup_cons,
          if_neg (not_beq_of_ne (Ne.symm h)),
          if_neg (show ¬((p.1 == k2) = true) by
            rw [hpk]; exact not_beq_of_ne (fun he => h he.symm))]
        exact ih
      · rw [if_neg (not_beq_of_ne hpk), dictLookup_cons, dictLookup_cons]
        by_cases hq : p.1 = k2
        · rw [if_pos (beq_true_of_eq hq), if_pos (beq_true_of_eq hq)]
        · rw [if_neg (not_beq_of_ne hq), if_neg (not_beq_of_ne hq)]
          exact ih

theorem dictLookup_map_replace_self (d : Dict) (k : String) (v : JVal)
    (h : ∃ q ∈ d, q.1 = k) :
    dictLookup (d.map (fun p => if p.1 == k then (k, v) else p)) k = some v := by
  induction d with
  | nil =>
      obtain ⟨q, hq, _⟩ := h
      exact absurd hq (List.not_mem_nil q)
  | cons p t ih =>
      rw [List.map_cons]
      by_cases hpk : p.1 = k
      · rw [if_pos (beq_true_of_eq hpk), dictLookup_cons, if_pos (beq_true_of_eq rfl)]
      · rw [if_neg (not_beq_of_ne hpk), dictLookup_cons, if_neg (not_beq_of_ne hpk)]
        refine ih ?_
        obtain ⟨q, hq, hqk⟩ := h
        rcases List.mem_cons.mp hq with h1 | h1
        · exact absurd (h1 ▸ hqk) hpk
        · exact ⟨q, h1, hqk⟩

theorem dictLookup_append_single_self (d : Dict) (k : String) (v : JVal)
    (h : ∀ q ∈ d, q.1 ≠ k) :
    dictLookup (d ++ [(k, v)]) k = some v := by
  induction d with
  | nil => rw [List.nil_append, dictLookup_cons, if_pos (beq_true_of_eq rfl)]
  | cons p t ih =>
      rw [List.cons_append, dictLookup_cons,
        if_neg (not_beq_of_ne (h p (by simp)))]
      exact ih (fun q hq => h q (by simp [hq]))

theorem dictLookup_append_single_ne (d : Dict) (k k2 : String) (v : JVal) (h : k2 ≠ k) :
    dictLookup (d ++ [(k, v)]) k2 = dictLookup d k2 := by
  induction d with
  | nil =>
      rw [List.nil_append, dictLookup_cons,
        if_neg (not_beq_of_ne (fun he => h he.symm))]
  | cons p t ih =>
      rw [List.cons_append, dictLookup_cons, dictLookup_cons]
      by_cases hq : p.1 = k2
      · rw [if_pos (beq_true_of_eq hq), if_pos (beq_true_of_eq hq)]
      · rw [if_neg (not_beq_of_ne hq), if_neg (not_beq_of_ne hq)]
        exact ih

theorem dictLookup_dictInsert (d : Dict) (k k2 : String) (v : JVal) :
    dictLookup (dictInsert d k v) k2 = if k2 = k then some v else dictLookup d k2 := by
  unfold dictInsert
  by_cases hc : d.any (fun p => p.1 == k) = true
  · rw [if_pos hc]
    have hex : ∃ q ∈ d, q.1 = k := by
      obtain ⟨q, hq, hqk⟩ := List.any_eq_true.mp hc
      exact ⟨q, hq, by simpa using hqk⟩
    by_cases hk : k2 = k
    · subst hk
      rw [if_pos rfl]
      exact dictLookup_map_replace_self d k2 v hex
    · rw [if_neg hk]
      exact dictLookup_map_replace_ne d k k2 v hk
  · have hall : ∀ q ∈ d, q.1 ≠ k := by
      intro q hq he
      exact hc (List.any_eq_true.mpr ⟨q, hq, by simpa using he⟩)
    rw [if_neg hc]
    by_cases hk : k2 = k
    · subst hk
      rw [if_pos rfl]
      exact dictLookup_append_single_self d k2 v hall
    · rw [if_neg hk]
      exact dictLookup_append_single_ne d k k2 v hk

theorem dictLookup_dictMerge (b : Dict) (a : Dict) (k : String)
    (hb : (b.map Prod.fst).Nodup) :
    dictLookup (dictMerge a b) k =
      (match dictLookup b k with
       | some v => some v
       | none => dictLookup a k) := by
  induction b generalizing a with
  | nil => rfl
  | cons p t ih =>
      rw [List.map_cons] at hb
      obtain ⟨hnm, hnd⟩ := List.nodup_cons.mp hb
      have hstep : dictMerge a (p :: t) = dictMerge (dictInsert a p.1 p.2) t := rfl
      rw [hstep, ih (dictInsert a p.1 p.2) hnd, dictLookup_cons]
      by_cases hk : k = p.1
      · subst hk
        have hnone : dictLookup t p.1 = none :=
          dictLookup_eq_none_of_not_mem t p.1 hnm
        rw [hnone, if_pos (beq_true_of_eq rfl)]
        show dictLookup (dictInsert a p.1 p.2) p.1 = some p.2
        rw [dictLookup_dictInsert, if_pos rfl]
      · rw [if_neg (not_beq_of_ne (fun he => hk he.symm))]
        cases hl : dictLookup t k with
        | some w => rfl
        | none =>
            show dictLookup (dictInsert a p.1 p.2) k = dictLookup a k
            rw [dictLookup_dictInsert, if_neg hk]

/-- C3 evaluation, recording the code bug: when either of the two request
outcomes is a raised exception (`none`), `fetch_country_data` itself raises
(UnboundLocalError at the `zip` on line 47) instead of returning the empty
list promised by its docstring and the spec. -/
theorem fetch_failure_raises :
    fetch_country_data none (some [[("name", JVal.str "x")]]) = .error .unboundLocal ∧
    fetch_country_data (some [[("name", JVal.str "x")]]) none = .error .unboundLocal ∧
    fetch_country_data none none = .error .unboundLocal :=
  ⟨rfl, rfl, rfl⟩

/-- C4: for every pair of successfully fetched response lists the merged list
has length `min m n`, and each merged record is the index-wise shallow union
in which the second response's value wins on every key present in both (keys
of JSON-parsed records are unique, hence the Nodup hypothesis). -/
theorem fetch_merge_spec (a b : List Dict)
    (hb : ∀ d ∈ b, (d.map Prod.fst).Nodup) :
    ∃ m, fetch_country_data (some a) (some b) = .ok m ∧
      m.length = min a.length b.length ∧
      ∀ i : Nat, i < m.length → ∀ k : String,
        dictLookup (m.getD i []) k =
          (match dictLookup (b.getD i []) k with
           | some v => some v
           | none => dictLookup (a.getD i []) k) := by
  refine ⟨_, rfl, ?_, ?_⟩
  · simp
  · intro i hi k
    have hlen : i < (a.zip b).length := by simpa using hi
    have hia : i < a.length := by
      rw [List.length_zip] at hlen
      omega
    have hib : i < b.length := by
      rw [List.length_zip] at hlen
      omega
    have hm : (((a.zip b).map (fun p => dictMerge p.1 p.2)).getD i []) =
        dictMerge (a.getD i []) (b.getD i []) := by
      rw [List.getD_eq_getElem _ _ (by simpa using hi),
        List.getD_eq_getElem _ _ hia, List.getD_eq_getElem _ _ hib,
        List.getElem_map, List.getElem_zip]
    rw [hm, List.getD_eq_getElem _ _ hib]
    exact dictLookup_dictMerge _ _ _ (hb _ (List.getElem_mem hib))

/-- Two concrete response lists exercising the merge: the overlapping key
"x" takes the second response's value. -/
def mergeA : List Dict := [[("x", JVal.str "1")]]

/-- Second response list for the merge witness. -/
def mergeB : List Dict := [[("x", JVal.str "2"), ("y", JVal.str "3")]]

theorem fetch_merge_spec_witness :
    (∀ d ∈ mergeB, (d.map Prod.fst).Nodup) ∧
    (∃ m, fetch_country_data (some mergeA) (some mergeB) = .ok m ∧
      m.length = min mergeA.length mergeB.length ∧
      ∀ i : Nat, i < m.length → ∀ k : String,
        dictLookup (m.getD i []) k =
          (match dictLookup (mergeB.getD i []) k with
           | some v => some v
           | none => dictLookup (mergeA.getD i []) k)) :=
  ⟨by decide, fetch_merge_spec mergeA mergeB (by decide)⟩

/-- The events the database phase appends after the acquisition trace, as a
function of the collaborator outcomes. -/
def dbTrace (db : DbEnv) : List Event :=
  if db.connOk then
    if db.createOk then
      if db.insertOk then
        if db.commitOk then
          [Event.dbConnect, Event.dbCreateTable, Event.dbInsert, Event.dbCommit,
           Event.cursorClose, Event.connClose]
        else [Event.dbConnect, Event.dbCreateTable, Event.dbInsert, Event.dbCommit]
      else [Event.dbConnect, Event.dbCreateTable, Event.dbInsert]
    else [Event.dbConnect, Event.dbCreateTable]
  else [Event.dbConnect]

theorem runDbPhase_trace (db : DbEnv) (ev : List Event) :
    (runDbPhase db ev).2 = ev ++ dbTrace db := by
  obtain ⟨c, cr, ins, cm⟩ := db
  cases c <;> cases cr <;> cases ins <;> cases cm <;> simp [runDbPhase, dbTrace]

theorem fetchCall_not_mem_dbTrace (db : DbEnv) : Event.fetchCall ∉ dbTrace db := by
  obtain ⟨c, cr, ins, cm⟩ := db
  cases c <;> cases cr <;> cases ins <;> cases cm <;> decide

theorem runMain_some (countries : List Dict) (r1 r2 : Option (List Dict)) (db : DbEnv) :
    runMain (some countries) r1 r2 db =
      if countries.isEmpty = true then (.error .valueError, [Event.cacheLoad])
      else runDbPhase db [Event.cacheLoad] := rfl

theorem runMain_none (r1 r2 : Option (List Dict)) (db : DbEnv) :
    runMain none r1 r2 db =
      (match fetch_country_data r1 r2 with
       | .error e => (.error e, [Event.cacheLoad, Event.fetchCall])
       | .ok countries =>
           if countries.isEmpty = true then
             (.error .valueError, [Event.cacheLoad, Event.fetchCall])
           else runDbPhase db [Event.cacheLoad, Event.fetchCall]) := rfl

theorem runMain_none_error (r1 r2 : Option (List Dict)) (e : PyErr) (db : DbEnv)
    (hf : fetch_country_data r1 r2 = .error e) :
    runMain none r1 r2 db = (.error e, [Event.cacheLoad, Event.fetchCall]) := by
  rw [runMain_none, hf]

theorem runMain_none_ok (r1 r2 : Option (List Dict)) (countries : List Dict) (db : DbEnv)
    (hf : fetch_country_data r1 r2 = .ok countries) :
    runMain none r1 r2 db =
      if countries.isEmpty = true then
        (.error .valueError, [Event.cacheLoad, Event.fetchCall])
      else runDbPhase db [Event.cacheLoad, Event.fetchCall] := by
  rw [runMain_none, hf]

/-- C5 counterexample: the cache yields an empty record list, yet `main` does
not invoke the remote fetch — the trace is just the cache load — and fails
fatally at once, against the claim that an empty cache triggers the fetch. -/
theorem cache_gates_fetch_cex :
    runMain (some []) (some [[("name", JVal.str "x")]])
        (some [[("name", JVal.str "x")]]) ⟨true, true, true, true⟩ =
      (.error .valueError, [Event.cacheLoad]) ∧
    Event.fetchCall ∉
      (runMain (some []) (some [[("name", JVal.str "x")]])
        (some [[("name", JVal.str "x")]]) ⟨true, true, true, true⟩).2 :=
  ⟨rfl, by decide⟩

/-- C5 amended: `main` invokes the remote fetch exactly when the cache load
returns no list at all (`None`: missing or unparsable file); when the cache
yields an empty list, the fetch is skipped and `main` fails fatally with the
"no data" ValueError immediately. -/
theorem cache_gates_fetch (cache : Option (List Dict)) (r1 r2 : Option (List Dict))
    (db : DbEnv) :
    (Event.fetchCall ∈ (runMain cache r1 r2 db).2 ↔ cache = none) ∧
    runMain (some []) r1 r2 db = (.error .valueError, [Event.cacheLoad]) := by
  refine ⟨?_, rfl⟩
  cases cache with
  | some countries =>
      constructor
      · intro hmem
        exfalso
        rw [runMain_some] at hmem
        by_cases hc : countries.isEmpty = true
        · rw [if_pos hc] at hmem
          exact absurd hmem (by decide)
        · rw [if_neg hc, runDbPhase_trace] at hmem
          rcases List.mem_append.mp hmem with h | h
          · exact absurd h (by decide)
          · exact fetchCall_not_mem_dbTrace db h
      · intro h
        exact absurd h (by simp)
  | none =>
      constructor
      · intro _
        rfl
      · intro _
        cases hf : fetch_country_data r1 r2 with
        | error e =>
            rw [runMain_none_error r1 r2 e db hf]
            show Event.fetchCall ∈ [Event.cacheLoad, Event.fetchCall]
            decide
        | ok countries =>
            rw [runMain_none_ok r1 r2 countries db hf]
            by_cases hc : countries.isEmpty = true
            · rw [if_pos hc]
              decide
            · rw [if_neg hc, runDbPhase_trace]
              exact List.mem_append.mpr (Or.inl (by decide))

/-- C8: in every run in which the cache yields nothing and the fetch returns
an empty record list — or the cache itself yields an empty list — `main`
raises the "no data" ValueError and its trace contains no database
connection attempt. -/
theorem no_data_aborts_before_db (r1 r2 : Option (List Dict)) (db : DbEnv)
    (hfetch : fetch_country_data r1 r2 = .ok []) :
    (runMain none r1 r2 db = (.error .valueError, [Event.cacheLoad, Event.fetchCall]) ∧
      Event.dbConnect ∉ (runMain none r1 r2 db).2) ∧
    (runMain (some []) r1 r2 db = (.error .valueError, [Event.cacheLoad]) ∧
      Event.dbConnect ∉ (runMain (some []) r1 r2 db).2) := by
  have h1 : runMain none r1 r2 db =
      (.error .valueError, [Event.cacheLoad, Event.fetchCall]) := by
    rw [runMain_none_ok r1 r2 [] db hfetch]
    rfl
  refine ⟨⟨h1, ?_⟩, rfl, ?_⟩
  · rw [h1]
    decide
  · show Event.dbConnect ∉ [Event.cacheLoad]
    decide

theorem no_data_aborts_before_db_witness :
    fetch_country_data (some []) (some []) = .ok [] ∧
    ((runMain none (some []) (some []) ⟨true, true, true, true⟩ =
        (.error .valueError, [Event.cacheLoad, Event.fetchCall]) ∧
      Event.dbConnect ∉ (runMain none (some []) (some []) ⟨true, true, true, true⟩).2) ∧
     (runMain (some []) (some []) (some []) ⟨true, true, true, true⟩ =
        (.error .valueError, [Event.cacheLoad]) ∧
      Event.dbConnect ∉
        (runMain (some []) (some []) (some []) ⟨true, true, true, true⟩).2)) :=
  ⟨rfl, no_data_aborts_before_db (some []) (some []) ⟨true, true, true, true⟩ rfl⟩

/-- A database environment in which every step succeeds. -/
def dbAll : DbEnv := ⟨true, true, true, true⟩

/-- A database environment in which `create_table` raises. -/
def dbFailCreate : DbEnv := ⟨true, false, true, true⟩

/-- C9 counterexample: the connection and cursor are acquired (the trace
reaches `dbConnect`), `create_table` then raises, and the run ends without
`cursor.close()` or `conn.close()` ever appearing in the trace — the claim
that both are released on every such exit path fails. -/
theorem resource_release_cex :
    (runMain (some [[]]) none none dbFailCreate).2 =
      [Event.cacheLoad, Event.dbConnect, Event.dbCreateTable] ∧
    Event.dbConnect ∈ (runMain (some [[]]) none none dbFailCreate).2 ∧
    Event.cursorClose ∉ (runMain (some [[]]) none none dbFailCreate).2 ∧
    Event.connClose ∉ (runMain (some [[]]) none none dbFailCreate).2 :=
  ⟨rfl, by decide, by decide, by decide⟩

/-- C9 amended: once the record list is non-empty and the connection is
acquired, the cursor and the connection are closed exactly when create-table,
bulk-insert and commit all succeed; when any of them raises, the exception
propagates out of `main` and neither resource is released. -/
theorem resource_release_on_success (cs : List Dict) (r1 r2 : Option (List Dict))
    (db : DbEnv) (hcs : cs ≠ []) (hconn : db.connOk = true) :
    (Event.cursorClose ∈ (runMain (some cs) r1 r2 db).2 ↔
      (db.createOk = true ∧ db.insertOk = true ∧ db.commitOk = true)) ∧
    (Event.connClose ∈ (runMain (some cs) r1 r2 db).2 ↔
      (db.createOk = true ∧ db.insertOk = true ∧ db.commitOk = true)) := by
  obtain ⟨c, cr, ins, cm⟩ := db
  have hc : c = true := hconn
  subst hc
  have hne : cs.isEmpty = false := by
    cases cs with
    | nil => exact absurd rfl hcs
    | cons x t => rfl
  have htr : (runMain (some cs) r1 r2 ⟨true, cr, ins, cm⟩).2 =
      [Event.cacheLoad] ++ dbTrace ⟨true, cr, ins, cm⟩ := by
    rw [runMain_some, if_neg (by rw [hne]; exact Bool.false_ne_true), runDbPhase_trace]
  rw [htr]
  cases cr <;> cases ins <;> cases cm <;> decide

theorem resource_release_on_success_witness :
    ([([] : Dict)] ≠ ([] : List Dict)) ∧ dbAll.connOk = true ∧
    ((Event.cursorClose ∈ (runMain (some [[]]) none none dbAll).2 ↔
        (dbAll.createOk = true ∧ dbAll.insertOk = true ∧ dbAll.commitOk = true)) ∧
     (Event.connClose ∈ (runMain (some [[]]) none none dbAll).2 ↔
        (dbAll.createOk = true ∧ dbAll.insertOk = true ∧ dbAll.commitOk = true))) :=
  ⟨List.cons_ne_nil [] [], rfl,
   resource_release_on_success [[]] none none dbAll (List.cons_ne_nil [] []) rfl⟩

/-! ### Documented record shapes (spec section 3) -/

/-- Is the value a string? -/
def isStrV : JVal → Bool
  | .str _ => true
  | _ => false

/-- A sequence of strings. -/
def strListShape : JVal → Bool
  | .arr xs => xs.all isStrV
  | _ => false

/-- The key is absent, or present with a string value. -/
def optKeyStr (kvs : Dict) (k : String) : Bool :=
  match dictLookup kvs k with
  | none => true
  | some v => isStrV v

/-- One `nativeName` entry: a mapping whose `common`, when present, is a string. -/
def nativeEntryShape : JVal → Bool
  | .obj kvs => optKeyStr kvs "common"
  | _ => false

/-- The `name` field: a mapping whose `nativeName`, when present, is a mapping
of well-shaped entries. -/
def nameShape : JVal → Bool
  | .obj kvs =>
      (match dictLookup kvs "nativeName" with
       | none => true
       | some (.obj nn) => nn.all (fun p => nativeEntryShape p.2)
       | some _ => false)
  | _ => false

/-- One `currencies` entry: a mapping with optional string `name`, `symbol`. -/
def currencyEntryShape : JVal → Bool
  | .obj kvs => optKeyStr kvs "name" && optKeyStr kvs "symbol"
  | _ => false

/-- The `currencies` field: a mapping of well-shaped entries. -/
def currenciesShape : JVal → Bool
  | .obj kvs => kvs.all (fun p => currencyEntryShape p.2)
  | _ => false

/-- The `idd` field: a mapping with optional string `root` and optional
string-sequence `suffixes`. -/
def iddShape : JVal → Bool
  | .obj kvs =>
      optKeyStr kvs "root" &&
      (match dictLookup kvs "suffixes" with
       | none => true
       | some v => strListShape v)
  | _ => false

/-- The `languages` field: a mapping of string display names. -/
def languagesShape : JVal → Bool
  | .obj kvs => kvs.all (fun p => isStrV p.2)
  | _ => false

/-- The field is absent, or present and of shape `p`. -/
def optField (c : Dict) (k : String) (p : JVal → Bool) : Bool :=
  match dictLookup c k with
  | none => true
  | some v => p v

/-- Every documented optional field of the record is absent or of the
documented nested shape. -/
def wellShaped (c : Dict) : Bool :=
  optField c "name" nameShape &&
  optField c "currencies" currenciesShape &&
  optField c "idd" iddShape &&
  optField c "capital" strListShape &&
  optField c "languages" languagesShape &&
  optField c "continents" strListShape

theorem isStrV_exists : ∀ {v : JVal}, isStrV v = true → ∃ s, v = JVal.str s
  | JVal.str s, _ => ⟨s, rfl⟩
  | JVal.null, h => Bool.noConfusion h
  | JVal.bool _, h => Bool.noConfusion h
  | JVal.num _, h => Bool.noConfusion h
  | JVal.arr _, h => Bool.noConfusion h
  | JVal.obj _, h => Bool.noConfusion h

theorem all_isStrV_exists (xs : List JVal) (h : ∀ x ∈ xs, isStrV x = true) :
    ∃ ss : List String, xs = ss.map JVal.str := by
  induction xs with
  | nil => exact ⟨[], rfl⟩
  | cons x t ih =>
      obtain ⟨s, rfl⟩ := isStrV_exists (h x (List.mem_cons_self x t))
      obtain ⟨ss, rfl⟩ := ih (fun y hy => h y (List.mem_cons_of_mem _ hy))
      exact ⟨s :: ss, rfl⟩

theorem strListShape_exists :
    ∀ {v : JVal}, strListShape v = true → ∃ ss : List String, v = JVal.arr (ss.map JVal.str)
  | JVal.arr xs, h => by
      obtain ⟨ss, rfl⟩ := all_isStrV_exists xs (List.all_eq_true.mp h)
      exact ⟨ss, rfl⟩
  | JVal.null, h => Bool.noConfusion h
  | JVal.bool _, h => Bool.noConfusion h
  | JVal.num _, h => Bool.noConfusion h
  | JVal.str _, h => Bool.noConfusion h
  | JVal.obj _, h => Bool.noConfusion h

theorem nameShape_obj : ∀ {v : JVal}, nameShape v = true → ∃ kvs : Dict, v = JVal.obj kvs
  | JVal.obj kvs, _ => ⟨kvs, rfl⟩
  | JVal.null, h => Bool.noConfusion h
  | JVal.bool _, h => Bool.noConfusion h
  | JVal.num _, h => Bool.noConfusion h
  | JVal.str _, h => Bool.noConfusion h
  | JVal.arr _, h => Bool.noConfusion h

theorem currenciesShape_obj :
    ∀ {v : JVal}, currenciesShape v = true → ∃ kvs : Dict, v = JVal.obj kvs
  | JVal.obj kvs, _ => ⟨kvs, rfl⟩
  | JVal.null, h => Bool.noConfusion h
  | JVal.bool _, h => Bool.noConfusion h
  | JVal.num _, h => Bool.noConfusion h
  | JVal.str _, h => Bool.noConfusion h
  | JVal.arr _, h => Bool.noConfusion h

theorem iddShape_obj : ∀ {v : JVal}, iddShape v = true → ∃ kvs : Dict, v = JVal.obj kvs
  | JVal.obj kvs, _ => ⟨kvs, rfl⟩
  | JVal.null, h => Bool.noConfusion h
  | JVal.bool _, h => Bool.noConfusion h
  | JVal.num _, h => Bool.noConfusion h
  | JVal.str _, h => Bool.noConfusion h
  | JVal.arr _, h => Bool.noConfusion h

theorem nativeEntryShape_exists :
    ∀ {v : JVal}, nativeEntryShape v = true →
      ∃ kvs2 : Dict, v = JVal.obj kvs2 ∧ optKeyStr kvs2 "common" = true
  | JVal.obj kvs2, h => ⟨kvs2, rfl, h⟩
  | JVal.null, h => Bool.noConfusion h
  | JVal.bool _, h => Bool.noConfusion h
  | JVal.num _, h => Bool.noConfusion h
  | JVal.str _, h => Bool.noConfusion h
  | JVal.arr _, h => Bool.noConfusion h

theorem currencyEntryShape_exists :
    ∀ {v : JVal}, currencyEntryShape v = true →
      ∃ kvs2 : Dict, v = JVal.obj kvs2 ∧
        optKeyStr kvs2 "name" = true ∧ optKeyStr kvs2 "symbol" = true
  | JVal.obj kvs2, h => by
      have h2 : optKeyStr kvs2 "name" = true ∧ optKeyStr kvs2 "symbol" = true := by
        simpa [currencyEntryShape] using h
      exact ⟨kvs2, rfl, h2.1, h2.2⟩
  | JVal.null, h => Bool.noConfusion h
  | JVal.bool _, h => Bool.noConfusion h
  | JVal.num _, h => Bool.noConfusion h
  | JVal.str _, h => Bool.noConfusion h
  | JVal.arr _, h => Bool.noConfusion h

theorem languagesShape_exists :
    ∀ {v : JVal}, languagesShape v = true →
      ∃ kvs : Dict, v = JVal.obj kvs ∧ ∀ w ∈ kvs.map Prod.snd, isStrV w = true
  | JVal.obj kvs, h => ⟨kvs, rfl, by
      intro w hw
      obtain ⟨p, hp, hpw⟩ := List.mem_map.mp hw
      rw [← hpw]
      exact List.all_eq_true.mp h p hp⟩
  | JVal.null, h => Bool.noConfusion h
  | JVal.bool _, h => Bool.noConfusion h
  | JVal.num _, h => Bool.noConfusion h
  | JVal.str _, h => Bool.noConfusion h
  | JVal.arr _, h => Bool.noConfusion h

/-- When the key (or `optKeyStr` shape) allows it, `get` with a string
default yields a string. -/
theorem pyGetD_str_of_optKeyStr {kvs : Dict} {k : String} (dflt : String)
    (h : optKeyStr kvs k = true) :
    ∃ s, pyGetD kvs k (.str dflt) = JVal.str s := by
  unfold optKeyStr at h
  unfold pyGetD
  cases hl : dictLookup kvs k with
  | none => exact ⟨dflt, rfl⟩
  | some w =>
      rw [hl] at h
      obtain ⟨s, hs⟩ := isStrV_exists (by simpa using h)
      exact ⟨s, by rw [hs]; rfl⟩

theorem shape_pyGetD {c : Dict} {k : String} {p : JVal → Bool} {d : JVal}
    (h : optField c k p = true) (hd : p d = true) : p (pyGetD c k d) = true := by
  unfold optField at h
  unfold pyGetD
  cases hl : dictLookup c k with
  | none => simpa using hd
  | some v =>
      rw [hl] at h
      simpa using h

theorem jGet_obj (kvs : Dict) (k : String) :
    jGet (JVal.obj kvs) k = Except.ok (pyGet kvs k) := rfl

theorem jGetD_obj (kvs : Dict) (k : String) (d : JVal) :
    jGetD (JVal.obj kvs) k d = Except.ok (pyGetD kvs k d) := rfl

theorem jValues_obj (kvs : Dict) :
    jValues (JVal.obj kvs) = Except.ok (kvs.map Prod.snd) := rfl

theorem jKeys_obj (kvs : Dict) :
    jKeys (JVal.obj kvs) = Except.ok (kvs.map Prod.fst) := rfl

theorem pyIter_arr (xs : List JVal) : pyIter (JVal.arr xs) = Except.ok xs := rfl

/-- Mapping `v.get(k, dflt)` over values that are each dicts whose `k` is
absent or a string yields a list of strings. -/
theorem mapExcept_jGetD_strs (k : String) (dflt : String) (vs : List JVal)
    (h : ∀ v ∈ vs, ∃ kvs2 : Dict, v = JVal.obj kvs2 ∧ optKeyStr kvs2 k = true) :
    ∃ ss : List String,
      mapExcept (fun v => jGetD v k (.str dflt)) vs = .ok (ss.map JVal.str) := by
  induction vs with
  | nil => exact ⟨[], rfl⟩
  | cons x t ih =>
      obtain ⟨kvs2, rfl, hk⟩ := h x (List.mem_cons_self x t)
      obtain ⟨ss, hss⟩ := ih (fun v hv => h v (List.mem_cons_of_mem _ hv))
      obtain ⟨s, hs⟩ := pyGetD_str_of_optKeyStr dflt hk
      refine ⟨s :: ss, ?_⟩
      show (do
        let y ← jGetD (JVal.obj kvs2) k (.str dflt)
        let ys ← mapExcept (fun v => jGetD v k (.str dflt)) t
        Except.ok (y :: ys) : Except PyErr (List JVal)) = Except.ok ((s :: ss).map JVal.str)
      rw [jGetD_obj, hs, ok_bind, hss, ok_bind, List.map_cons]

/-- A well-shaped `name` yields a `nativeName` dict of well-shaped entries. -/
theorem nativeNames_entries {kvs : Dict} (h : nameShape (JVal.obj kvs) = true) :
    ∃ nn : Dict, pyGetD kvs "nativeName" (JVal.obj []) = JVal.obj nn ∧
      ∀ v ∈ nn.map Prod.snd,
        ∃ kvs2 : Dict, v = JVal.obj kvs2 ∧ optKeyStr kvs2 "common" = true := by
  have h2 : (match dictLookup kvs "nativeName" with
       | none => true
       | some (.obj nn) => nn.all (fun p => nativeEntryShape p.2)
       | some _ => false) = true := h
  unfold pyGetD
  cases hl : dictLookup kvs "nativeName" with
  | none =>
      refine ⟨[], rfl, ?_⟩
      intro v hv
      exact absurd hv (by simp)
  | some w =>
      rw [hl] at h2
      cases w with
      | obj nn =>
          refine ⟨nn, rfl, ?_⟩
          intro v hv
          obtain ⟨p, hp, hpv⟩ := List.mem_map.mp hv
          rw [← hpv]
          exact nativeEntryShape_exists
            (List.all_eq_true.mp
              (show nn.all (fun p => nativeEntryShape p.2) = true from h2) p hp)
      | null => simp at h2
      | bool b => simp at h2
      | num n => simp at h2
      | str s => simp at h2
      | arr l => simp at h2

/-- A well-shaped `currencies` dict has well-shaped entry values. -/
theorem currencies_entries {kvs : Dict} (h : currenciesShape (JVal.obj kvs) = true) :
    ∀ v ∈ kvs.map Prod.snd,
      ∃ kvs2 : Dict, v = JVal.obj kvs2 ∧
        optKeyStr kvs2 "name" = true ∧ optKeyStr kvs2 "symbol" = true := by
  intro v hv
  obtain ⟨p, hp, hpv⟩ := List.mem_map.mp hv
  rw [← hpv]
  exact currencyEntryShape_exists
    (List.all_eq_true.mp (show kvs.all (fun p => currencyEntryShape p.2) = true from h) p hp)

theorem commonNameField_ok {c : Dict} (h : nameShape (nameOf c) = true) :
    ∃ v, commonNameField c = .ok v := by
  obtain ⟨kvs, hk⟩ := nameShape_obj h
  exact ⟨pyGet kvs "common", by unfold commonNameField; rw [hk, jGet_obj]⟩

theorem officialNameField_ok {c : Dict} (h : nameShape (nameOf c) = true) :
    ∃ v, officialNameField c = .ok v := by
  obtain ⟨kvs, hk⟩ := nameShape_obj h
  exact ⟨pyGet kvs "official", by unfold officialNameField; rw [hk, jGet_obj]⟩

theorem nativeNamesField_ok {c : Dict} (h : nameShape (nameOf c) = true) :
    ∃ v, nativeNamesField c = .ok v := by
  obtain ⟨kvs, hk⟩ := nameShape_obj h
  rw [hk] at h
  obtain ⟨nn, hnn, hent⟩ := nativeNames_entries h
  obtain ⟨ss, hmap⟩ := mapExcept_jGetD_strs "common" "" (nn.map Prod.snd) hent
  refine ⟨.str (String.intercalate ", " ss), ?_⟩
  simp only [nativeNamesField, hk, jGetD_obj, hnn, ok_bind, jValues_obj, hmap,
    pyJoin_map_str]

theorem currencyCodesField_ok {c : Dict} (h : currenciesShape (currenciesOf c) = true) :
    ∃ v, currencyCodesField c = .ok v := by
  obtain ⟨kvs, hk⟩ := currenciesShape_obj h
  refine ⟨.str (String.intercalate ", " (kvs.map Prod.fst)), ?_⟩
  simp only [currencyCodesField, hk, jKeys_obj, ok_bind]

theorem currencyNamesField_ok {c : Dict} (h : currenciesShape (currenciesOf c) = true) :
    ∃ v, currencyNamesField c = .ok v := by
  obtain ⟨kvs, hk⟩ := currenciesShape_obj h
  rw [hk] at h
  obtain ⟨ss, hmap⟩ := mapExcept_jGetD_strs "name" "" (kvs.map Prod.snd)
    (fun v hv => by
      obtain ⟨k2, he, h1, h2⟩ := currencies_entries h v hv
      exact ⟨k2, he, h1⟩)
  refine ⟨.str (String.intercalate ", " ss), ?_⟩
  simp only [currencyNamesField, hk, jValues_obj, ok_bind, hmap, pyJoin_map_str]

theorem currencySymbolsField_ok {c : Dict} (h : currenciesShape (currenciesOf c) = true) :
    ∃ v, currencySymbolsField c = .ok v := by
  obtain ⟨kvs, hk⟩ := currenciesShape_obj h
  rw [hk] at h
  obtain ⟨ss, hmap⟩ := mapExcept_jGetD_strs "symbol" "" (kvs.map Prod.snd)
    (fun v hv => by
      obtain ⟨k2, he, h1, h2⟩ := currencies_entries h v hv
      exact ⟨k2, he, h2⟩)
  refine ⟨.str (String.intercalate ", " ss), ?_⟩
  simp only [currencySymbolsField, hk, jValues_obj, ok_bind, hmap, pyJoin_map_str]

theorem callingCodesField_ok {c : Dict} (h : iddShape (iddOf c) = true) :
    ∃ v, callingCodesField c = .ok v := by
  obtain ⟨kvs, hk⟩ := iddShape_obj h
  rw [hk] at h
  have h2 : optKeyStr kvs "root" = true ∧
      (match dictLookup kvs "suffixes" with
       | none => true
       | some v => strListShape v) = true := by
    simpa [iddShape] using h
  obtain ⟨hroot, hsfx⟩ := h2
  obtain ⟨r, hr⟩ := pyGetD_str_of_optKeyStr "" hroot
  cases hl : dictLookup kvs "suffixes" with
  | none => exact ⟨_, callingCodesField_empty hk (Or.inl hl)⟩
  | some w =>
      rw [hl] at hsfx
      obtain ⟨ss, rfl⟩ := strListShape_exists (show strListShape w = true by simpa using hsfx)
      cases ss with
      | nil => exact ⟨_, callingCodesField_empty hk (Or.inr hl)⟩
      | cons s t =>
          exact ⟨_, callingCodesField_strList r (s :: t) (List.cons_ne_nil s t) hk hl hr⟩

theorem capitalField_ok {c : Dict} (h : optField c "capital" strListShape = true) :
    ∃ v, capitalField c = .ok v := by
  unfold optField at h
  cases hl : dictLookup c "capital" with
  | none => exact ⟨_, capitalField_default (Or.inl hl)⟩
  | some w =>
      rw [hl] at h
      obtain ⟨ss, rfl⟩ := strListShape_exists (show strListShape w = true by simpa using h)
      cases ss with
      | nil => exact ⟨_, capitalField_default (Or.inr hl)⟩
      | cons s t => exact ⟨_, capitalField_strList (s :: t) (List.cons_ne_nil s t) hl⟩

theorem languagesField_ok {c : Dict} (h : optField c "languages" languagesShape = true) :
    ∃ v, languagesField c = .ok v := by
  unfold optField at h
  cases hl : dictLookup c "languages" with
  | none =>
      refine ⟨.str "", ?_⟩
      simp only [languagesField]
      rw [show pyGetD c "languages" (JVal.obj []) = JVal.obj [] by
        unfold pyGetD; rw [hl]; rfl]
      rfl
  | some w =>
      rw [hl] at h
      obtain ⟨kvs, rfl, hall⟩ := languagesShape_exists (show languagesShape w = true by simpa using h)
      obtain ⟨ss, hss⟩ := all_isStrV_exists (kvs.map Prod.snd) hall
      refine ⟨.str (String.intercalate ", " ss), ?_⟩
      simp only [languagesField]
      rw [show pyGetD c "languages" (JVal.obj []) = JVal.obj kvs by
        unfold pyGetD; rw [hl]; rfl]
      simp only [jValues_obj, ok_bind, hss, pyJoin_map_str]

theorem continentsField_ok {c : Dict} (h : optField c "continents" strListShape = true) :
    ∃ v, continentsField c = .ok v := by
  unfold optField at h
  cases hl : dictLookup c "continents" with
  | none =>
      refine ⟨.str "", ?_⟩
      simp only [continentsField]
      rw [show pyGetD c "continents" (JVal.arr []) = JVal.arr [] by
        unfold pyGetD; rw [hl]; rfl]
      rfl
  | some w =>
      rw [hl] at h
      obtain ⟨ss, rfl⟩ := strListShape_exists (show strListShape w = true by simpa using h)
      refine ⟨.str (String.intercalate ", " ss), ?_⟩
      simp only [continentsField]
      rw [show pyGetD c "continents" (JVal.arr []) = JVal.arr (ss.map JVal.str) by
        unfold pyGetD; rw [hl]; rfl]
      simp only [pyIter_arr, ok_bind, pyJoin_map_str]

/-- C6: for every raw country record whose documented optional fields are
each either absent or of the documented nested shape, `transform_country`
raises no exception and returns a row — missing nested maps are treated as
empty maps (the `{}` / `[]` defaults of lines 114-132), not as errors. -/
theorem transform_country_total {c : Dict} (h : wellShaped c = true) :
    ∃ row, transform_country c = .ok row := by
  unfold wellShaped at h
  rw [Bool.and_eq_true, Bool.and_eq_true, Bool.and_eq_true, Bool.and_eq_true,
    Bool.and_eq_true] at h
  obtain ⟨⟨⟨⟨⟨h1, h2⟩, h3⟩, h4⟩, h5⟩, h6⟩ := h
  have hn : nameShape (nameOf c) = true := shape_pyGetD h1 rfl
  have hcur : currenciesShape (currenciesOf c) = true := shape_pyGetD h2 rfl
  have hidd2 : iddShape (iddOf c) = true := shape_pyGetD h3 rfl
  obtain ⟨v1, e1⟩ := commonNameField_ok hn
  obtain ⟨v2, e2⟩ := officialNameField_ok hn
  obtain ⟨v3, e3⟩ := nativeNamesField_ok hn
  obtain ⟨v4, e4⟩ := currencyCodesField_ok hcur
  obtain ⟨v5, e5⟩ := currencyNamesField_ok hcur
  obtain ⟨v6, e6⟩ := currencySymbolsField_ok hcur
  obtain ⟨v7, e7⟩ := callingCodesField_ok hidd2
  obtain ⟨v8, e8⟩ := capitalField_ok h4
  obtain ⟨v11, e11⟩ := languagesField_ok h5
  obtain ⟨v14, e14⟩ := continentsField_ok h6
  refine ⟨{ commonName := v1, officialName := v2, nativeNames := v3,
            currencyCodes := v4, currencyNames := v5, currencySymbols := v6,
            callingCodes := v7, capital := v8, region := regionField c,
            subregion := subregionField c, languages := v11,
            area := areaField c, population := populationField c,
            continents := v14, independent := independentField c,
            unMember := unMemberField c, startOfWeek := startOfWeekField c }, ?_⟩
  simp only [transform_country, e1, e2, e3, e4, e5, e6, e7, e8, e11, e14, ok_bind]

theorem transform_country_total_witness :
    wellShaped testland = true ∧ ∃ row, transform_country testland = .ok row :=
  ⟨rfl, transform_country_total rfl⟩

/-- C7: `transform_country` on the spec's example record yields common name
"Testland", currency code "XYZ", currency name "Testcoin", symbol "T",
capital "Unknown", calling codes "", and area and population both 0. -/
theorem testland_example :
    transform_country testland = .ok testlandRow ∧
    testlandRow.commonName = .str "Testland" ∧
    testlandRow.currencyCodes = .str "XYZ" ∧
    testlandRow.currencyNames = .str "Testcoin" ∧
    testlandRow.currencySymbols = .str "T" ∧
    testlandRow.capital = .str "Unknown" ∧
    testlandRow.callingCodes = .str "" ∧
    testlandRow.area = .num 0 ∧
    testlandRow.population = .num 0 :=
  ⟨rfl, rfl, rfl, rfl, rfl, rfl, rfl, rfl, rfl⟩

/-- Dict entries that are present but each lack every inner key. -/
def entriesMissingInner (keys : List String) : Dict :=
  keys.map (fun k => (k, JVal.obj []))

/-- A record whose `name.nativeName` and `currencies` entries all lack their
inner keys (`common`, `name`, `symbol`). -/
def c10rec (nkeys ckeys : List String) : Dict :=
  [("name", JVal.obj [("nativeName", JVal.obj (entriesMissingInner nkeys))]),
   ("currencies", JVal.obj (entriesMissingInner ckeys))]

theorem mapExcept_missing_inner (k dflt : String) (keys : List String) :
    mapExcept (fun v => jGetD v k (.str dflt))
        ((entriesMissingInner keys).map Prod.snd) =
      .ok (List.replicate keys.length (JVal.str dflt)) := by
  induction keys with
  | nil => rfl
  | cons x t ih =>
      show (do
        let y ← jGetD (JVal.obj []) k (.str dflt)
        let ys ← mapExcept (fun v => jGetD v k (.str dflt))
          ((entriesMissingInner t).map Prod.snd)
        Except.ok (y :: ys) : Except PyErr (List JVal)) =
          Except.ok (List.replicate (t.length + 1) (JVal.str dflt))
      rw [show jGetD (JVal.obj []) k (.str dflt) = Except.ok (JVal.str dflt) from rfl,
        ok_bind, ih, ok_bind]
      rfl

theorem replicate_str_map (n : Nat) (dflt : String) :
    List.replicate n (JVal.str dflt) = (List.replicate n dflt).map JVal.str := by
  induction n with
  | zero => rfl
  | succ m ih => rw [List.replicate_succ, List.replicate_succ, List.map_cons, ih]

theorem pyJoin_replicate (sep : String) (n : Nat) (dflt : String) :
    pyJoin sep (List.replicate n (JVal.str dflt)) =
      .ok (String.intercalate sep (List.replicate n dflt)) := by
  rw [replicate_str_map, pyJoin_map_str]

/-- C10: a nested entry that is present but lacks its inner key contributes
the empty string to the join instead of being skipped: with `n` nativeName
entries missing `common` the native-names field is the join of `n` empty
strings (a lone ", " for two entries), and likewise for `currencies.*.name`
and `currencies.*.symbol`. -/
theorem missing_inner_keys_join (nkeys ckeys : List String) :
    ∃ row, transform_country (c10rec nkeys ckeys) = .ok row ∧
      row.nativeNames = .str (String.intercalate ", " (List.replicate nkeys.length "")) ∧
      row.currencyNames = .str (String.intercalate ", " (List.replicate ckeys.length "")) ∧
      row.currencySymbols = .str (String.intercalate ", " (List.replicate ckeys.length "")) := by
  have e1 : commonNameField (c10rec nkeys ckeys) = .ok JVal.null := rfl
  have e2 : officialNameField (c10rec nkeys ckeys) = .ok JVal.null := rfl
  have e3 : nativeNamesField (c10rec nkeys ckeys) =
      .ok (.str (String.intercalate ", " (List.replicate nkeys.length ""))) := by
    have h0 : nativeNamesField (c10rec nkeys ckeys) =
        (do
          let items ← mapExcept (fun native => jGetD native "common" (JVal.str ""))
            ((entriesMissingInner nkeys).map Prod.snd)
          let s ← pyJoin ", " items
          Except.ok (JVal.str s)) := rfl
    rw [h0, mapExcept_missing_inner]
    show (do
      let s ← pyJoin ", " (List.replicate nkeys.length (JVal.str ""))
      Except.ok (JVal.str s) : Except PyErr JVal) =
        Except.ok (JVal.str (String.intercalate ", " (List.replicate nkeys.length "")))
    rw [pyJoin_replicate, ok_bind]
  have e4 : currencyCodesField (c10rec nkeys ckeys) =
      .ok (.str (String.intercalate ", " ((entriesMissingInner ckeys).map Prod.fst))) := rfl
  have e5 : currencyNamesField (c10rec nkeys ckeys) =
      .ok (.str (String.intercalate ", " (List.replicate ckeys.length ""))) := by
    have h0 : currencyNamesField (c10rec nkeys ckeys) =
        (do
          let items ← mapExcept (fun v => jGetD v "name" (JVal.str ""))
            ((entriesMissingInner ckeys).map Prod.snd)
          let s ← pyJoin ", " items
          Except.ok (JVal.str s)) := rfl
    rw [h0, mapExcept_missing_inner]
    show (do
      let s ← pyJoin ", " (List.replicate ckeys.length (JVal.str ""))
      Except.ok (JVal.str s) : Except PyErr JVal) =
        Except.ok (JVal.str (String.intercalate ", " (List.replicate ckeys.length "")))
    rw [pyJoin_replicate, ok_bind]
  have e6 : currencySymbolsField (c10rec nkeys ckeys) =
      .ok (.str (String.intercalate ", " (List.replicate ckeys.length ""))) := by
    have h0 : currencySymbolsField (c10rec nkeys ckeys) =
        (do
          let items ← mapExcept (fun v => jGetD v "symbol" (JVal.str ""))
            ((entriesMissingInner ckeys).map Prod.snd)
          let s ← pyJoin ", " items
          Except.ok (JVal.str s)) := rfl
    rw [h0, mapExcept_missing_inner]
    show (do
      let s ← pyJoin ", " (List.replicate ckeys.length (JVal.str ""))
      Except.ok (JVal.str s) : Except PyErr JVal) =
        Except.ok (JVal.str (String.intercalate ", " (List.replicate ckeys.length "")))
    rw [pyJoin_replicate, ok_bind]
  have e7 : callingCodesField (c10rec nkeys ckeys) = .ok (.str "") := rfl
  have e8 : capitalField (c10rec nkeys ckeys) = .ok (.str "Unknown") := rfl
  have e11 : languagesField (c10rec nkeys ckeys) = .ok (.str "") := rfl
  have e14 : continentsField (c10rec nkeys ckeys) = .ok (.str "") := rfl
  refine ⟨{ commonName := JVal.null, officialName := JVal.null,
            nativeNames := .str (String.intercalate ", " (List.replicate nkeys.length "")),
            currencyCodes := .str (String.intercalate ", "
              ((entriesMissingInner ckeys).map Prod.fst)),
            currencyNames := .str (String.intercalate ", " (List.replicate ckeys.length "")),
            currencySymbols := .str (String.intercalate ", " (List.replicate ckeys.length "")),
            callingCodes := .str "", capital := .str "Unknown",
            region := regionField (c10rec nkeys ckeys),
            subregion := subregionField (c10rec nkeys ckeys),
            languages := .str "",
            area := areaField (c10rec nkeys ckeys),
            population := populationField (c10rec nkeys ckeys),
            continents := .str "",
            independent := independentField (c10rec nkeys ckeys),
            unMember := unMemberField (c10rec nkeys ckeys),
            startOfWeek := startOfWeekField (c10rec nkeys ckeys) }, ?_, rfl, rfl, rfl⟩
  simp only [transform_country, e1, e2, e3, e4, e5, e6, e7, e8, e11, e14, ok_bind]

end Countries
